import Mathlib

/-!
Verification development for the ShareLM dashboard and migration scripts.

The two Python sources are shallowly embedded:
  * `src/app.py` — partition discovery (`get_parquet_urls`), timestamp-field
    selection and date parsing, and the aggregation loop of `process_data`.
  * `src/migrate_to_mongodb.py` — `get_parquet_urls`, `prepare_document`
    (with its inner `convert_value`), and the per-file migration loop of
    `migrate_to_mongodb`.

External collaborators (the HuggingFace filesystem glob, DuckDB fetches,
MongoDB writes, the wall clock) are passed in as explicit oracle functions
or oracle streams; everything else is translated directly from the source.
Python exceptions are modelled with `Except`/`Option`; Python dicts are
modelled as association lists in insertion order (Python dicts preserve
insertion order, and rows produced by `DataFrame.to_dict` have unique keys).
-/

/-! ## Calendar dates and datetimes (Python `datetime.date` / `datetime.datetime`) -/

/-- A Python `datetime.date`: year, month, day. -/
structure YMD where
  y : Nat
  m : Nat
  d : Nat
deriving DecidableEq

/-- A Python `datetime.datetime`, truncated to second precision (all parse
branches in the sources strip fractional seconds before parsing, and time
zone offsets do not change the stored wall-clock fields). -/
structure PyDT where
  date : YMD
  hh : Nat
  mm : Nat
  ss : Nat
deriving DecidableEq

/-- Python `date.__lt__`: lexicographic on (year, month, day). -/
def ymdLt (a b : YMD) : Bool :=
  decide (a.y < b.y) ||
    (decide (a.y = b.y) &&
      (decide (a.m < b.m) || (decide (a.m = b.m) && decide (a.d < b.d))))

/-- Gregorian leap year, as used by `datetime` for date validation. -/
def isLeap (y : Nat) : Bool :=
  decide (y % 4 = 0) && (!decide (y % 100 = 0) || decide (y % 400 = 0))

/-- Days in a month, as used by `datetime` for date validation. -/
def daysInMonth (y m : Nat) : Nat :=
  if m = 2 then (if isLeap y then 29 else 28)
  else if m = 4 ∨ m = 6 ∨ m = 9 ∨ m = 11 then 30
  else 31

/-- The validation performed by the `datetime.date` constructor
(`MINYEAR = 1`, `MAXYEAR = 9999`, day within the month). -/
def validDate (y m d : Nat) : Bool :=
  decide (1 ≤ y) && decide (y ≤ 9999) &&
    decide (1 ≤ m) && decide (m ≤ 12) &&
    decide (1 ≤ d) && decide (d ≤ daysInMonth y m)

/-! ## Character-level string utilities

Python strings are modelled as `String`, converted to `List Char` for
scanning: Python `len`, indexing and `in` are all code-point based, which
matches `String.toList`. -/

/-- Numeric value of a decimal digit character. -/
def dVal (c : Char) : Nat := c.toNat - 48

/-- Bool-valued list-prefix test (used for Python `str.startswith` and as
the building block of the substring test). -/
def leadsWith : List Char → List Char → Bool
  | [], _ => true
  | _ :: _, [] => false
  | a :: xs, b :: ys => a == b && leadsWith xs ys

/-- Python substring containment `nd in hay` over code points. -/
def subList (nd : List Char) : List Char → Bool
  | [] => leadsWith nd []
  | c :: cs => leadsWith nd (c :: cs) || subList nd cs

/-- Python `s.split(sep)[0]` for a one-character separator: everything
before the first occurrence. -/
def splitDot (cs : List Char) : List Char := cs.takeWhile (fun c => !(c == '.'))

/-- Python `s.replace(CAPZ, PLUS0000)` where the pattern is the single
character Z and the replacement is the six characters of a zero UTC
offset; every occurrence is replaced. -/
def replaceZ : List Char → List Char
  | [] => []
  | c :: cs =>
    if c == 'Z' then '+' :: '0' :: '0' :: ':' :: '0' :: '0' :: replaceZ cs
    else c :: replaceZ cs

/-- Consume one expected literal character. -/
def expectC (c : Char) : List Char → Option (List Char)
  | x :: xs => if x == c then some xs else none
  | [] => none

/-- Consume exactly two digits (CPython `_parse_hh_mm_ss_ff` components). -/
def parse2Digits : List Char → Option (Nat × List Char)
  | a :: b :: rest =>
    if a.isDigit && b.isDigit then some (10 * dVal a + dVal b, rest) else none
  | _ => none

/-- Consume exactly four digits (the `strptime` pattern for a year). -/
def parse4Y : List Char → Option (Nat × List Char)
  | a :: b :: c :: d :: rest =>
    if a.isDigit && b.isDigit && c.isDigit && d.isDigit then
      some (1000 * dVal a + 100 * dVal b + 10 * dVal c + dVal d, rest)
    else none
  | _ => none

/-- Consume one or two digits with a range test, mirroring the greedy
alternation of the `strptime` regexes for month, day, hour, minute and
second (two digits are taken when in range, otherwise a single digit). -/
def parse12 (ok : Nat → Bool) : List Char → Option (Nat × List Char)
  | c1 :: c2 :: rest =>
    if c1.isDigit then
      if c2.isDigit && ok (10 * dVal c1 + dVal c2) then
        some (10 * dVal c1 + dVal c2, rest)
      else if ok (dVal c1) then some (dVal c1, c2 :: rest)
      else none
    else none
  | [c1] => if c1.isDigit && ok (dVal c1) then some (dVal c1, []) else none
  | [] => none

def monthOK (v : Nat) : Bool := decide (1 ≤ v) && decide (v ≤ 12)
def dayOK (v : Nat) : Bool := decide (1 ≤ v) && decide (v ≤ 31)
def hourOK (v : Nat) : Bool := decide (v ≤ 23)
def minSecOK (v : Nat) : Bool := decide (v ≤ 59)

/-- CPython `_parse_isoformat_date`: an exact `YYYY-MM-DD` prefix of ten
characters, validated by the `date` constructor. -/
def parseDate10 : List Char → Option YMD
  | [y1, y2, y3, y4, s1, m1, m2, s2, d1, d2] =>
    if y1.isDigit && y2.isDigit && y3.isDigit && y4.isDigit &&
        (s1 == '-') && m1.isDigit && m2.isDigit && (s2 == '-') &&
        d1.isDigit && d2.isDigit then
      let y := 1000 * dVal y1 + 100 * dVal y2 + 10 * dVal y3 + dVal y4
      let m := 10 * dVal m1 + dVal m2
      let d := 10 * dVal d1 + dVal d2
      if validDate y m d then some ⟨y, m, d⟩ else none
    else none
  | _ => none

/-- Index of the first occurrence of a character, Python `str.find`. -/
def firstIdx (c : Char) : List Char → Option Nat
  | [] => none
  | a :: xs => if a == c then some 0 else (firstIdx c xs).map (· + 1)

/-- CPython 3.10 `fromisoformat` time-zone split: the time string is cut at
the first minus sign if any, else at the first plus sign. -/
def splitAtTz (cs : List Char) : List Char × Option (List Char) :=
  match firstIdx '-' cs with
  | some i => (cs.take i, some (cs.drop (i + 1)))
  | none =>
    match firstIdx '+' cs with
    | some i => (cs.take i, some (cs.drop (i + 1)))
    | none => (cs, none)

/-- CPython `_parse_hh_mm_ss_ff` on a fraction-free string:
`HH`, `HH:MM` or `HH:MM:SS`, each component exactly two digits. -/
def parseTimeHMS (cs : List Char) : Option (Nat × Nat × Nat) := do
  let (h, r1) ← parse2Digits cs
  match r1 with
  | [] => some (h, 0, 0)
  | ':' :: r2 => do
    let (m, r3) ← parse2Digits r2
    match r3 with
    | [] => some (h, m, 0)
    | ':' :: r4 => do
      let (s, r5) ← parse2Digits r4
      if r5.isEmpty then some (h, m, s) else none
    | _ => none
  | _ => none

/-- CPython 3.10 `datetime.fromisoformat` restricted to fraction-free
input (both call sites strip fractional seconds first): a ten-character
date, then optionally one separator character (any character) and a time,
with an optional UTC offset of total magnitude below 24 hours whose
textual form is five or eight characters. -/
def parseIsoChars (cs : List Char) : Option PyDT := do
  let ymd ← parseDate10 (cs.take 10)
  match cs.drop 10 with
  | [] => some ⟨ymd, 0, 0, 0⟩
  | _ :: tstr =>
    let (timestr, tz) := splitAtTz tstr
    match parseTimeHMS timestr with
    | none => none
    | some (h, m, s) =>
      if decide (h ≤ 23) && decide (m ≤ 59) && decide (s ≤ 59) then
        match tz with
        | none => some ⟨ymd, h, m, s⟩
        | some tzs =>
          if decide (tzs.length = 5) || decide (tzs.length = 8) then
            match parseTimeHMS tzs with
            | some (th, tm, ts2) =>
              if decide (th * 3600 + tm * 60 + ts2 < 86400) then
                some ⟨ymd, h, m, s⟩
              else none
            | none => none
          else none
      else none

/-- Python `datetime.strptime(s, PERCENT_Y_M_D_HMS)` for the space-separated
format, including the final full-match check and constructor validation. -/
def parseSpaceChars (cs : List Char) : Option PyDT := do
  let (y, r1) ← parse4Y cs
  let r2 ← expectC '-' r1
  let (m, r3) ← parse12 monthOK r2
  let r4 ← expectC '-' r3
  let (d, r5) ← parse12 dayOK r4
  let r6 ← expectC ' ' r5
  let (h, r7) ← parse12 hourOK r6
  let r8 ← expectC ':' r7
  let (mi, r9) ← parse12 minSecOK r8
  let r10 ← expectC ':' r9
  let (s, r11) ← parse12 minSecOK r10
  if r11.isEmpty && validDate y m d then some ⟨⟨y, m, d⟩, h, mi, s⟩ else none

/-- Python `datetime.strptime(s, PERCENT_Y_M_D)` for the bare date format. -/
def parseDateFull (cs : List Char) : Option PyDT := do
  let (y, r1) ← parse4Y cs
  let r2 ← expectC '-' r1
  let (m, r3) ← parse12 monthOK r2
  let r4 ← expectC '-' r3
  let (d, r5) ← parse12 dayOK r4
  if r5.isEmpty && validDate y m d then some ⟨⟨y, m, d⟩, 0, 0, 0⟩ else none

/-- Parse format (1) of the sources: ISO with zone normalisation and
fractional-second truncation, as in
`datetime.fromisoformat(v.replace(...).split(...)[0])`. -/
def parseFmtIsoStr (s : String) : Option PyDT :=
  parseIsoChars (splitDot (replaceZ s.toList))

/-- Parse format (2): `datetime.strptime(v.split(...)[0], ...)` with the
space-separated date-time pattern. -/
def parseFmtSpaceStr (s : String) : Option PyDT :=
  parseSpaceChars (splitDot s.toList)

/-- Parse format (3): `datetime.strptime(v, ...)` with the bare date pattern. -/
def parseFmtDateStr (s : String) : Option PyDT :=
  parseDateFull s.toList

/-- The date-resolution dispatch of `process_data` (src/app.py lines
183-195): format (1) when the value contains a literal T, else format (2)
when it contains a space, else format (3); a parse failure is the
swallowed exception of the surrounding `try`. -/
def rowDate (s : String) : Option YMD :=
  if s.toList.contains 'T' then (parseFmtIsoStr s).map PyDT.date
  else if s.toList.contains ' ' then (parseFmtSpaceStr s).map PyDT.date
  else (parseFmtDateStr s).map PyDT.date

/-! ## The aggregator of `process_data` (src/app.py)

A fetched row is an insertion-ordered mapping from field name to value.
For the aggregation loop only two things about a value matter: whether it
is Python `None`, and what `str()` of it is.  A value is therefore
`Option String`: `none` is Python `None`, `some s` is any non-`None`
value whose `str()` is `s`.  The `{row: ...}` wrapper added by
`fetch_dataset_with_duckdb` and unwrapped by `row.get(ROW, row)` is the
identity in this model. -/

abbrev AppRow := List (String × Option String)

/-- First-match association-list lookup (Python dict lookup; dict keys are
unique). -/
def assocLookup {α β : Type} [DecidableEq α] (k : α) : List (α × β) → Option β
  | [] => none
  | (a, b) :: t => if a = k then some b else assocLookup k t

/-- `defaultdict(int)` increment: bump the count of a key, appending it
with count 1 when absent (Python dicts keep insertion order). -/
def bump {α : Type} [DecidableEq α] : List (α × Nat) → α → List (α × Nat)
  | [], k => [(k, 1)]
  | (a, n) :: t, k => if a = k then (a, n + 1) :: t else (a, n) :: bump t k

/-- Sum of the counts of a counter, Python `sum(counts.values())`. -/
def sumVals {α : Type} : List (α × Nat) → Nat
  | [] => 0
  | p :: t => p.2 + sumVals t

/-- `row_data.get(SOURCE, UNKNOWN)` — the default fires only when the key
is absent; a present `None` value is returned as-is. -/
def rowSource (r : AppRow) : Option String :=
  match assocLookup "source" r with
  | none => some "unknown"
  | some v => v

/-- Python `source in selected_sources` where the sources list holds
strings: a `None` source is never a member. -/
def optSrcMem : Option String → List String → Bool
  | some s, sel => sel.contains s
  | none, _ => false

/-- The source filter of the loop: an empty list means no filtering. -/
def sourcePass (sel : List String) (src : Option String) : Bool :=
  sel.isEmpty || optSrcMem src sel

/-- The fixed priority list of canonical timestamp field names
(src/app.py line 157). -/
def tsCanonical : List String :=
  ["timestamp", "date", "created_at", "time", "created", "ts", "datetime"]

/-- Python `field in first_row_data` (dict key membership). -/
def hasKey (r : AppRow) (k : String) : Bool := (assocLookup k r).isSome

/-- The fallback heuristic of src/app.py line 166: the lowercased key
contains one of the three substrings. -/
def heurMatch (k : String) : Bool :=
  subList "time".toList k.toLower.toList ||
    subList "date".toList k.toLower.toList ||
    subList "created".toList k.toLower.toList

/-- A `for`-loop with `break`: the first element satisfying the test. -/
def scanFirst : List String → (String → Bool) → Option String
  | [], _ => none
  | k :: ks, p => if p k then some k else scanFirst ks p

/-- Timestamp-field selection from the first row (src/app.py lines
151-169): scan the canonical names, then fall back to the heuristic scan
over the row's keys in iteration order. -/
def findTimestampField (r : AppRow) : Option String :=
  match scanFirst tsCanonical (fun c => hasKey r c) with
  | some f => some f
  | none => scanFirst (r.map Prod.fst) heurMatch

/-- The specification's wording of the same selection: the first canonical
name present, `orElse` the first key matching the heuristic.  Kept separate
from `findTimestampField` so the two can be compared. -/
def specTimestampField (r : AppRow) : Option String :=
  match tsCanonical.find? (fun c => hasKey r c) with
  | some c => some c
  | none => (r.map Prod.fst).find? heurMatch

/-- The per-run configuration of the aggregation loop: the resolved
filters and the timestamp field chosen from the first row. -/
structure AggCfg where
  selectedSources : List String
  minDate : Option YMD
  maxDate : Option YMD
  tsField : Option String
deriving DecidableEq

/-- The guard of src/app.py line 181: `timestamp_field` truthy (a
non-empty string), key present and value not `None`; yields `str(value)`. -/
def rowTsValue (cfg : AggCfg) (r : AppRow) : Option String :=
  match cfg.tsField with
  | none => none
  | some f =>
    if f = "" then none
    else
      match assocLookup f r with
      | some (some s) => some s
      | _ => none

/-- The resolved date of a row: absent when the guard fails or when the
dispatched parse raises (the swallowed exception of lines 202-203). -/
def rowDateOf (cfg : AggCfg) (r : AppRow) : Option YMD :=
  match rowTsValue cfg r with
  | none => none
  | some s => rowDate s

/-- `min_date_obj and row_date < min_date_obj` — only tested when a date
was resolved, since the bound checks sit inside the `try` after the parse. -/
def boundLow : Option YMD → Option YMD → Bool
  | some d, some m => ymdLt d m
  | _, _ => false

/-- `max_date_obj and row_date > max_date_obj`. -/
def boundHigh : Option YMD → Option YMD → Bool
  | some d, some m => ymdLt m d
  | _, _ => false

/-- The three accumulators of the loop (`source_counts`, `time_series`,
`filtered_count`); the date keys are the calendar dates themselves, since
`strftime` of a valid date is injective. -/
structure AggState where
  sourceCounts : List (Option String × Nat)
  timeSeries : List (YMD × Nat)
  filteredCount : Nat
deriving DecidableEq

def initAggState : AggState := ⟨[], [], 0⟩

/-- One iteration of the `for row in rows` loop of `process_data`
(src/app.py lines 171-213): source filter, date resolution, date-bound
`continue`s, then the three counters. -/
def processRow (cfg : AggCfg) (st : AggState) (r : AppRow) : AggState :=
  if !(sourcePass cfg.selectedSources (rowSource r)) then st
  else if boundLow (rowDateOf cfg r) cfg.minDate ||
      boundHigh (rowDateOf cfg r) cfg.maxDate then st
  else
    { sourceCounts := bump st.sourceCounts (rowSource r)
      timeSeries :=
        match rowDateOf cfg r with
        | some d => bump st.timeSeries d
        | none => st.timeSeries
      filteredCount := st.filteredCount + 1 }

/-- `if min_date: try strptime except pass` (src/app.py lines 133-145):
a falsy input or a failed parse leaves the bound absent. -/
def parseBound : Option String → Option YMD
  | none => none
  | some s => if s = "" then none else (parseFmtDateStr s).map PyDT.date

/-- The core of `process_data` after the bounds are resolved: the early
return on an empty fetch, the one-time field selection from the first
row, and the fold of the counting loop. -/
def processDataCore (rows : List AppRow) (minB maxB : Option YMD)
    (sel : List String) : Option AggState :=
  match rows with
  | [] => none
  | r0 :: _ =>
    some (rows.foldl (processRow ⟨sel, minB, maxB, findTimestampField r0⟩) initAggState)

/-- `process_data` (src/app.py lines 124-213) up to chart rendering:
`none` is the early textual-error return for an empty fetch. -/
def process_data (rows : List AppRow) (minDate maxDate : Option String)
    (sel : List String) : Option AggState :=
  processDataCore rows (parseBound minDate) (parseBound maxDate) sel

/-! Fixtures: the three-row example of spec section 8. -/

def exRow1 : AppRow := [("source", some "a"), ("timestamp", some "2023-01-01T00:00:00Z")]
def exRow2 : AppRow := [("source", some "b"), ("timestamp", some "2023-01-02")]
def exRow3 : AppRow := [("source", some "a")]
def exRows : List AppRow := [exRow1, exRow2, exRow3]

/-- The aggregation state the code produces on `exRows` with no filters. -/
def exStateNoFilter : AggState :=
  ⟨[(some "a", 2), (some "b", 1)], [(⟨2023, 1, 1⟩, 1), (⟨2023, 1, 2⟩, 1)], 3⟩

/-- The aggregation state the code produces on `exRows` with
`min_date = "2023-01-02"`. -/
def exStateMinBound : AggState :=
  ⟨[(some "b", 1), (some "a", 1)], [(⟨2023, 1, 2⟩, 1)], 2⟩


/-! ## Python values and `prepare_document` (src/migrate_to_mongodb.py)

A fetched cell value, as produced by `df.iterrows()` / `row.to_dict()`,
is modelled by `Value`.  NumPy scalars, `pd.NaT`, `pd.Timestamp` and
`np.ndarray` are kept distinct from the plain Python types because
`convert_value` dispatches on exactly those `isinstance` tests.  A
`vNdarray` models a typed NumPy array (numeric, boolean or datetime64
dtype, possibly nested); a `vList` is a plain Python list.  A `vFloat`
or `vNpFloat` carries only whether it is NaN, the one property `pd.isna`
inspects.  `vTimestamp` is a non-NaT `pd.Timestamp` (`pd.NaT` itself is
`vNaT`). -/

inductive Value where
  | vStr (s : String)
  | vInt (n : Int)
  | vFloat (isNan : Bool)
  | vBool (b : Bool)
  | vNone
  | vDatetime (dt : PyDT)
  | vNpInt (n : Int)
  | vNpFloat (isNan : Bool)
  | vNpBool (b : Bool)
  | vNaT
  | vTimestamp (dt : PyDT)
  | vNdarray (es : List Value)
  | vList (es : List Value)
  | vDict (kvs : List (String × Value))

/-- A Python dict of values (one row, or one prepared document). -/
abbrev PyDict := List (String × Value)

/-- `pd.isna` on a scalar: `None`, `NaT` and NaN floats are missing. -/
def pdIsnaScalar : Value → Bool
  | .vNone => true
  | .vNaT => true
  | .vFloat isNan => isNan
  | .vNpFloat isNan => isNan
  | _ => false

mutual

/-- `np.ndarray.tolist()`: an `a.ndim`-levels-deep nested list with NumPy
scalars converted to their Python equivalents (datetime64 entries become
`datetime` and datetime64 NaT becomes `None`); it does not recurse into
Python containers stored in object arrays. -/
def npToPy : Value → Value
  | .vNpInt n => .vInt n
  | .vNpFloat isNan => .vFloat isNan
  | .vNpBool b => .vBool b
  | .vNaT => .vNone
  | .vTimestamp dt => .vDatetime dt
  | .vNdarray es => .vList (npToPyList es)
  | v => v

def npToPyList : List Value → List Value
  | [] => []
  | v :: vs => npToPy v :: npToPyList vs

end

/-- The string heuristic of `convert_value` (src/migrate_to_mongodb.py
lines 138-151): date-looking strings are parsed to `datetime`, and on any
parse failure the `except: pass` falls through and the string is returned
unchanged. -/
def convertStr (s : String) : Value :=
  if s.toList.contains 'T' ||
      (decide (2 ≤ s.toList.count '-') && decide (10 ≤ s.toList.length)) then
    if s.toList.contains 'T' then
      match parseFmtIsoStr s with
      | some dt => .vDatetime dt
      | none => .vStr s
    else
      if decide (s.toList.length = 10) && decide (s.toList.count '-' = 2) then
        match parseFmtDateStr s with
        | some dt => .vDatetime dt
        | none => .vStr s
      else .vStr s
  else .vStr s

mutual

/-- `convert_value` (src/migrate_to_mongodb.py lines 123-164), compiled
per constructor from the Python `isinstance` chain, in source order:

1. `np.ndarray` → `tolist()`;
2. NumPy scalars → `.item()` / `bool()`;
3. `pd.isna(value)` — for a plain Python list this coerces the value to
   an array and truth-tests it, which raises `ValueError` unless the list
   has exactly one element (for a dict the coercion yields a 0-d object
   array, which is falsy); a true test returns `None`;
4. strings → the date heuristic;
5. lists and dicts → recursive conversion;
6. `pd.Timestamp` → `to_pydatetime()`;
7. anything else is returned as-is.

A Python exception is `Except.error ()`. -/
def convert_value : Value → Except Unit Value
  | .vNdarray es => .ok (.vList (npToPyList es))
  | .vNpInt n => .ok (.vInt n)
  | .vNpFloat isNan => .ok (.vFloat isNan)
  | .vNpBool b => .ok (.vBool b)
  | .vNone => .ok .vNone
  | .vNaT => .ok .vNone
  | .vFloat isNan => if isNan then .ok .vNone else .ok (.vFloat isNan)
  | .vInt n => .ok (.vInt n)
  | .vBool b => .ok (.vBool b)
  | .vDatetime dt => .ok (.vDatetime dt)
  | .vTimestamp dt => .ok (.vDatetime dt)
  | .vStr s => .ok (convertStr s)
  | .vList [e] =>
    if pdIsnaScalar e then .ok .vNone
    else
      match convert_value e with
      | .error u => .error u
      | .ok w => .ok (.vList [w])
  | .vList _ => .error ()
  | .vDict kvs =>
    match convert_kvs kvs with
    | .error u => .error u
    | .ok ws => .ok (.vDict ws)

/-- The `for key, value in doc.items(): doc[key] = convert_value(value)`
loop of `prepare_document`, in insertion order, first failure propagating. -/
def convert_kvs : List (String × Value) → Except Unit (List (String × Value))
  | [] => .ok []
  | (k, v) :: t =>
    match convert_value v with
    | .error u => .error u
    | .ok w =>
      match convert_kvs t with
      | .error u => .error u
      | .ok ws => .ok ((k, w) :: ws)

end

/-- Python `doc[key] = v`: replace in place if the key exists, else append
(dict keys are unique, so replacing the first hit is exact). -/
def dictSet : PyDict → String → Value → PyDict
  | [], k, v => [(k, v)]
  | (a, b) :: t, k, v =>
    if a = k then (a, v) :: t else (a, b) :: dictSet t k v

/-- `prepare_document` (src/migrate_to_mongodb.py lines 112-170): copy the
row, set the `_imported_at` metadata field to `datetime.utcnow()` (passed
in as `now`), then convert every value in place. -/
def prepare_document (now : PyDT) (row : PyDict) : Except Unit PyDict :=
  convert_kvs (dictSet row "_imported_at" (.vDatetime now))

mutual

/-- Persistence-safe values (spec section 3, PersistedDocument): strings,
numbers, booleans, `None`, datetimes, and lists/dicts of the same — no
NumPy scalar or array, no `NaT`, no `pd.Timestamp`. -/
def safeVal : Value → Bool
  | .vStr _ => true
  | .vInt _ => true
  | .vFloat _ => true
  | .vBool _ => true
  | .vNone => true
  | .vDatetime _ => true
  | .vList es => safeList es
  | .vDict kvs => safeKVs kvs
  | _ => false

def safeList : List Value → Bool
  | [] => true
  | v :: vs => safeVal v && safeList vs

def safeKVs : List (String × Value) → Bool
  | [] => true
  | (_, v) :: t => safeVal v && safeKVs t

end

mutual

/-- Array elements that `tolist()` renders persistence-safe: scalars of
any of the modelled kinds, and nested arrays of the same — no Python
containers stored in object arrays. -/
def ndElemGood : Value → Bool
  | .vNdarray es => ndGoodList es
  | .vList _ => false
  | .vDict _ => false
  | _ => true

def ndGoodList : List Value → Bool
  | [] => true
  | v :: vs => ndElemGood v && ndGoodList vs

end

mutual

/-- Row values on which `convert_value` is total and fully coercing: no
plain Python list anywhere (a list of two or more elements makes the
`pd.isna` truth test raise), and arrays contain only `ndElemGood`
elements (Python containers inside object arrays are returned by
`tolist()` without further coercion). -/
def goodInput : Value → Bool
  | .vList _ => false
  | .vNdarray es => ndGoodList es
  | .vDict kvs => goodKVs kvs
  | _ => true

def goodKVs : List (String × Value) → Bool
  | [] => true
  | (_, v) :: t => goodInput v && goodKVs t

end


/-! ## The migration pipeline of `migrate_to_mongodb` (src/migrate_to_mongodb.py)

The MongoDB collection is abstracted to its document count plus the
`_migration_metadata` singleton holding the processed-file set; the
outcome of each `insert_many` call (all inserted, `BulkWriteError` with a
reported `nInserted`, or some other exception) is an oracle stream
consumed one entry per call, defaulting to success when exhausted.
`fetch_single_file` is an oracle from URL to either a row list or a
raised exception.  The run state additionally records the trace of fetch
attempts and the number of `insert_many` calls, so that "zero fetches,
zero writes" is expressible. -/

/-- Outcome of one `collection.insert_many(documents, ordered=False)` call. -/
inductive BatchOutcome where
  | allOk
  | bulkErr (nInserted : Nat)
  | otherErr
deriving DecidableEq

/-- The persistent store: collection document count and the processed-file
ledger of the `_migration_metadata` collection. -/
structure Store where
  count : Nat
  processedFiles : List String
deriving DecidableEq

/-- The mutable state of one migration run. -/
structure MigState where
  store : Store
  totalInserted : Int
  totalSkipped : Int
  filesProcessed : Nat
  fetched : List String
  insertCalls : Nat
  outcomes : List BatchOutcome
deriving DecidableEq

def initMigState (store : Store) (outcomes : List BatchOutcome) : MigState :=
  ⟨store, 0, 0, 0, [], 0, outcomes⟩

/-- Membership of a URL in a list of URLs (Python `in` on a set of strings). -/
def memStr (u : String) : List String → Bool
  | [] => false
  | x :: xs => x == u || memStr u xs

/-- Pop the next write outcome from the oracle stream. -/
def nextOutcome : List BatchOutcome → BatchOutcome × List BatchOutcome
  | [] => (.allOk, [])
  | o :: os => (o, os)

/-- One `insert_many` attempt with its `try/except` ladder
(src/migrate_to_mongodb.py lines 245-259 and 267-281): on success all
documents count as inserted; on `BulkWriteError` the reported
`nInserted` is added to the inserted total and the remainder of the batch
to the skipped total; on any other exception the whole batch is skipped.
The totals are Python ints, hence `Int`. -/
def insertBatch (st : MigState) (docs : List PyDict) : MigState :=
  match nextOutcome st.outcomes with
  | (.allOk, rest) =>
    { st with
      store := { st.store with count := st.store.count + docs.length }
      totalInserted := st.totalInserted + (docs.length : Int)
      insertCalls := st.insertCalls + 1
      outcomes := rest }
  | (.bulkErr n, rest) =>
    { st with
      store := { st.store with count := st.store.count + n }
      totalInserted := st.totalInserted + (n : Int)
      totalSkipped := st.totalSkipped + ((docs.length : Int) - (n : Int))
      insertCalls := st.insertCalls + 1
      outcomes := rest }
  | (.otherErr, rest) =>
    { st with
      totalSkipped := st.totalSkipped + (docs.length : Int)
      insertCalls := st.insertCalls + 1
      outcomes := rest }

/-- The `for idx, row in df.iterrows()` loop of one file
(src/migrate_to_mongodb.py lines 239-263): prepare each document, buffer
it, and flush a batch once the buffer reaches `batch_size`.  The first
component of the result records whether `prepare_document` raised (which
aborts the file via the per-file `except` while keeping all state changes
made so far); otherwise the unflushed buffer is returned for the final
partial insert. -/
def rowLoop (now : PyDT) (batchSize : Nat) :
    MigState → List PyDict → List PyDict → Bool × MigState × List PyDict
  | st, buf, [] => (false, st, buf)
  | st, buf, r :: rs =>
    match prepare_document now r with
    | .error _ => (true, st, buf)
    | .ok doc =>
      let buf2 := buf ++ [doc]
      if batchSize ≤ buf2.length then rowLoop now batchSize (insertBatch st buf2) [] rs
      else rowLoop now batchSize st buf2 rs

/-- `mark_file_processed` (src/migrate_to_mongodb.py lines 100-110): the
`$addToSet` update appends the URL to the ledger if not already present. -/
def mark_file_processed (st : MigState) (url : String) : MigState :=
  if memStr url st.store.processedFiles then st
  else
    { st with
      store := { st.store with processedFiles := st.store.processedFiles ++ [url] } }

/-- One iteration of the per-file loop (src/migrate_to_mongodb.py lines
220-298): record the fetch attempt; a raised fetch is caught by the
per-file `except` and the loop continues (the file is NOT marked
processed).  An empty frame is marked processed and skipped without
counting as a processed file.  Otherwise the row loop runs, a raised
`prepare_document` aborts the file un-marked, and on normal completion
the final partial batch is written, the file is marked processed and the
processed-file counter is incremented. -/
def processFile (fetch : String → Except Unit (List PyDict)) (now : PyDT)
    (batchSize : Nat) (st : MigState) (url : String) : MigState :=
  let st1 := { st with fetched := st.fetched ++ [url] }
  match fetch url with
  | .error _ => st1
  | .ok rows =>
    if rows.isEmpty then mark_file_processed st1 url
    else
      match rowLoop now batchSize st1 [] rows with
      | (true, st2, _) => st2
      | (false, st2, buf) =>
        let st3 := if buf.isEmpty then st2 else insertBatch st2 buf
        let st4 := mark_file_processed st3 url
        { st4 with filesProcessed := st4.filesProcessed + 1 }

/-- `if max_files: parquet_urls = parquet_urls[:max_files]` — note that a
zero limit is falsy in Python and therefore does not limit. -/
def limitFiles : Option Nat → List String → List String
  | none, urls => urls
  | some n, urls => if n = 0 then urls else urls.take n

/-- `migrate_to_mongodb` (src/migrate_to_mongodb.py lines 172-308) after
the store connection and index creation: discovered URLs and the fetch
function are passed in, the processed-file ledger is read from the store
when resuming (`get_processed_files`), already-done URLs are filtered out
preserving order, and either the run returns early (everything done) or
the per-file loop folds over the remaining URLs. -/
def migrate_to_mongodb (fetch : String → Except Unit (List PyDict))
    (urls : List String) (maxFiles : Option Nat) (batchSize : Nat)
    (resume : Bool) (now : PyDT) (store : Store)
    (outcomes : List BatchOutcome) : MigState :=
  let urls2 := limitFiles maxFiles urls
  let processedFiles := if resume then store.processedFiles else []
  let filesToProcess := urls2.filter (fun u => !(memStr u processedFiles))
  let st0 := initMigState store outcomes
  if filesToProcess.isEmpty then st0
  else filesToProcess.foldl (processFile fetch now batchSize) st0

/-! ## The partition locator `get_parquet_urls`

Identical in both sources except that src/app.py caps the discovered
files at the first ten (`cap = some 10`) while the migration script does
not (`cap = none`).  `fs.glob` and `fs.url` are oracles; a raised glob is
caught and the next pattern tried. -/

def patA : String := "datasets/shachardon/ShareLM/*/train/*.parquet"
def patB : String := "datasets/shachardon/ShareLM/**/*.parquet"
def patC : String := "datasets/shachardon/ShareLM/**/train/*.parquet"

/-- The fixed pattern list (src/app.py lines 23-27, migration lines 31-35). -/
def globPatterns : List String := [patA, patB, patC]

/-- The `for pattern in patterns` loop with `break` on the first pattern
whose glob succeeds with at least one match; a raised glob or an empty
match list moves on to the next pattern. -/
def firstNonempty (glob : String → Except Unit (List String)) :
    List String → List String
  | [] => []
  | p :: ps =>
    match glob p with
    | .error _ => firstNonempty glob ps
    | .ok files => if files.isEmpty then firstNonempty glob ps else files

/-- `url and url.startswith(HTTP)` — a string starting with the four
characters of http is in particular non-empty. -/
def startsWithHttp (u : String) : Bool := leadsWith "http".toList u.toList

/-- The URL-conversion loop: `url = fs.url(path)` with a raised
conversion or a non-http result skipped (`except: continue`), appending
in order. -/
def convertUrls (toUrl : String → Except Unit String) : List String → List String
  | [] => []
  | f :: fs =>
    match toUrl f with
    | .error _ => convertUrls toUrl fs
    | .ok u =>
      if startsWithHttp u then u :: convertUrls toUrl fs
      else convertUrls toUrl fs

/-- `get_parquet_urls` (src/app.py lines 17-59, migration lines 27-67):
first matching pattern, raise if none matched; convert each (capped)
file path to a URL, skipping paths whose conversion raises or does not
yield an http URL; raise if no valid URL remains. -/
def get_parquet_urls (glob : String → Except Unit (List String))
    (toUrl : String → Except Unit String) (cap : Option Nat) :
    Except Unit (List String) :=
  let parquetFiles := firstNonempty glob globPatterns
  if parquetFiles.isEmpty then .error ()
  else
    let limited :=
      match cap with
      | some n => parquetFiles.take n
      | none => parquetFiles
    let urls := convertUrls toUrl limited
    if urls.isEmpty then .error () else .ok urls


/-! ## Remaining definitions: invariants and concrete fixtures -/

/-- The counting invariant of the aggregation loop: the source counter
total equals the filtered-row count, and the date counter total never
exceeds it. -/
def aggInv (st : AggState) : Prop :=
  sumVals st.sourceCounts = st.filteredCount ∧
    sumVals st.timeSeries ≤ st.filteredCount

/-- Whether `prepare_document` succeeds on a row (no exception raised). -/
def prepOk (now : PyDT) (r : PyDict) : Bool :=
  match prepare_document now r with
  | .ok _ => true
  | .error _ => false

/-- A fixed import time standing for `datetime.utcnow()`. -/
def now0 : PyDT := ⟨⟨2024, 1, 1⟩, 0, 0, 0⟩

/-- The aggregation configuration produced for `exRows` with
`min_date = "2023-01-02"`. -/
def cfg1W : AggCfg := ⟨[], some ⟨2023, 1, 2⟩, none, some "timestamp"⟩

/-- A configuration whose selected field holds an unparseable value in
`r7W`. -/
def cfg7W : AggCfg := ⟨[], none, none, some "timestamp"⟩

def r7W : AppRow := [("source", some "a"), ("timestamp", some "garbage")]

/-- A store in which both fixture URLs are already recorded as processed. -/
def storeW : Store := ⟨7, ["u1", "u2"]⟩

def urlsW : List String := ["u2", "u1"]

/-- A fetch oracle that always raises. -/
def fetchFailW : String → Except Unit (List PyDict) := fun _ => .error ()

/-- A fetch oracle returning one single-row file. -/
def fetch3W : String → Except Unit (List PyDict) := fun _ => .ok [[("a", .vInt 1)]]

/-- A migration state whose next write outcome is a `BulkWriteError`
reporting one inserted document. -/
def st3W : MigState := ⟨⟨0, []⟩, 0, 0, 0, [], 0, [.bulkErr 1]⟩

def docs3W : List PyDict := [[("a", .vInt 1)], [("b", .vInt 2)]]

def st4W : MigState := initMigState ⟨0, []⟩ []

/-- A glob oracle under which the first pattern matches nothing and the
second matches three files. -/
def globW : String → Except Unit (List String) :=
  fun p => if p = patB then .ok ["fileA", "fileB", "fileC"] else .ok []

/-- A glob oracle under which no pattern yields a match (one of them
raising). -/
def glob2W : String → Except Unit (List String) :=
  fun p => if p = patB then .error () else .ok []

def toUrlW : String → Except Unit String := fun f => .ok ("http://x/" ++ f)

/-- A row exercising every coercion branch of `convert_value`: a NumPy
scalar, a nested dict holding `NaT`, a nested NumPy array, a date-looking
string and a `pd.Timestamp`. -/
def rowGood9 : PyDict :=
  [("a", .vNpInt 5),
   ("b", .vDict [("c", .vNaT)]),
   ("d", .vNdarray [.vNpFloat false, .vNdarray [.vNpBool true]]),
   ("e", .vStr "2023-01-02"),
   ("f", .vTimestamp ⟨⟨2022, 5, 1⟩, 1, 2, 3⟩)]

/-- A row holding a plain two-element Python list. -/
def rowBad9 : PyDict := [("x", .vList [.vInt 1, .vInt 2])]


/-! ## Helper lemmas -/

theorem scanFirst_eq_find (l : List String) (p : String → Bool) :
    scanFirst l p = l.find? p := by
  induction l with
  | nil => rfl
  | cons a t ih =>
    simp only [scanFirst, List.find?_cons]
    cases h : p a <;> simp [h, ih]

theorem bump_sumVals {α : Type} [DecidableEq α] (m : List (α × Nat)) (k : α) :
    sumVals (bump m k) = sumVals m + 1 := by
  induction m with
  | nil => simp [bump, sumVals]
  | cons p t ih =>
    obtain ⟨a, n⟩ := p
    by_cases h : a = k
    · simp [bump, h, sumVals]
      omega
    · simp [bump, h, sumVals, ih]
      omega

theorem processRow_inv (cfg : AggCfg) (st : AggState) (r : AppRow)
    (h : aggInv st) : aggInv (processRow cfg st r) := by
  obtain ⟨h1, h2⟩ := h
  unfold processRow
  split
  · exact ⟨h1, h2⟩
  split
  · exact ⟨h1, h2⟩
  constructor
  · simp [bump_sumVals, h1]
  · cases hrd : rowDateOf cfg r <;> simp [bump_sumVals, hrd] <;> omega

theorem foldl_inv (cfg : AggCfg) :
    ∀ (rows : List AppRow) (st : AggState),
      aggInv st → aggInv (List.foldl (processRow cfg) st rows) := by
  intro rows
  induction rows with
  | nil => intro st h; exact h
  | cons r t ih => intro st h; exact ih _ (processRow_inv _ _ _ h)

/-! ## Claims about the aggregator -/

/-- Claim C5: for every input row sequence and every combination of source
and date filters, the aggregation result satisfies
`sum(date_counts.values()) <= sum(source_counts.values())`, and both sums
are bounded by the number of rows that passed the filters. -/
theorem c5_count_invariant (rows : List AppRow) (minD maxD : Option String)
    (sel : List String) (st : AggState)
    (h : process_data rows minD maxD sel = some st) :
    sumVals st.timeSeries ≤ sumVals st.sourceCounts ∧
      sumVals st.sourceCounts ≤ st.filteredCount ∧
      sumVals st.timeSeries ≤ st.filteredCount := by
  unfold process_data processDataCore at h
  cases rows with
  | nil => simp at h
  | cons r0 rest =>
    have hinv :
        aggInv (List.foldl
          (processRow ⟨sel, parseBound minD, parseBound maxD, findTimestampField r0⟩)
          initAggState (r0 :: rest)) :=
      foldl_inv _ _ _ ⟨rfl, Nat.le_refl 0⟩
    simp only [Option.some.injEq] at h
    rw [h] at hinv
    obtain ⟨e1, e2⟩ := hinv
    exact ⟨by omega, by omega, by omega⟩

/-- Witness for C5 at the three-row example of the spec. -/
theorem c5_witness :
    sumVals exStateNoFilter.timeSeries ≤ sumVals exStateNoFilter.sourceCounts ∧
      sumVals exStateNoFilter.sourceCounts ≤ exStateNoFilter.filteredCount ∧
      sumVals exStateNoFilter.timeSeries ≤ exStateNoFilter.filteredCount :=
  c5_count_invariant exRows none none [] exStateNoFilter (by decide)

/-- Claim C6: the timestamp field is chosen by scanning the canonical
names in priority order, falling back only when none is present to the
first key (in iteration order) containing time, date or created as a
substring of its lowercased form; the field is determined once from the
first row and the same configuration is folded over every row. -/
theorem c6_timestamp_field_selection (r0 : AppRow) (rest : List AppRow)
    (minD maxD : Option String) (sel : List String) :
    findTimestampField r0 = specTimestampField r0 ∧
      process_data (r0 :: rest) minD maxD sel =
        some (List.foldl
          (processRow ⟨sel, parseBound minD, parseBound maxD, findTimestampField r0⟩)
          initAggState (r0 :: rest)) := by
  constructor
  · unfold findTimestampField specTimestampField
    rw [scanFirst_eq_find, scanFirst_eq_find]
  · rfl

/-- Claim C7: when the selected timestamp field is absent or null, or its
stringified value fails all three parse formats, the row resolves to no
date without an exception and is still counted (source counter and
filtered count incremented, date counter untouched). -/
theorem c7_unparseable_timestamp (cfg : AggCfg) (st : AggState) (r : AppRow)
    (hts : ∀ s, rowTsValue cfg r = some s →
      parseFmtIsoStr s = none ∧ parseFmtSpaceStr s = none ∧
        parseFmtDateStr s = none)
    (hpass : sourcePass cfg.selectedSources (rowSource r) = true) :
    rowDateOf cfg r = none ∧
      processRow cfg st r =
        ⟨bump st.sourceCounts (rowSource r), st.timeSeries,
          st.filteredCount + 1⟩ := by
  have hrd : rowDateOf cfg r = none := by
    cases hv : rowTsValue cfg r with
    | none => simp only [rowDateOf, hv]
    | some s =>
      obtain ⟨e1, e2, e3⟩ := hts s hv
      simp only [rowDateOf, hv]
      unfold rowDate
      rw [e1, e2, e3]
      simp
  refine ⟨hrd, ?_⟩
  unfold processRow
  simp [hpass, hrd, boundLow, boundHigh]

/-- Witness for C7: a row whose timestamp field holds an unparseable
string. -/
theorem c7_witness :
    sourcePass cfg7W.selectedSources (rowSource r7W) = true ∧
      (rowDateOf cfg7W r7W = none ∧
        processRow cfg7W initAggState r7W =
          ⟨bump initAggState.sourceCounts (rowSource r7W),
            initAggState.timeSeries, initAggState.filteredCount + 1⟩) := by
  refine ⟨by decide, c7_unparseable_timestamp cfg7W initAggState r7W ?_ (by decide)⟩
  intro s hs
  have h0 : rowTsValue cfg7W r7W = some "garbage" := by decide
  rw [h0] at hs
  cases hs
  exact ⟨by decide, by decide, by decide⟩

/-- Claim C10: a min or max date input that does not parse as YYYY-MM-DD
is silently treated as absent — the aggregation result is identical to
the one with no such bound, with no error surfaced. -/
theorem c10_malformed_bound_ignored (rows : List AppRow)
    (minD maxD : Option String) (sel : List String) (s1 s2 : String)
    (h1 : parseFmtDateStr s1 = none) (h2 : parseFmtDateStr s2 = none) :
    process_data rows (some s1) maxD sel = process_data rows none maxD sel ∧
      process_data rows minD (some s2) sel = process_data rows minD none sel := by
  have pb : ∀ s, parseFmtDateStr s = none → parseBound (some s) = none := by
    intro s hs
    simp only [parseBound]
    by_cases he : s = ""
    · simp [he]
    · simp [he, hs]
  constructor
  · unfold process_data
    rw [pb s1 h1]
    rfl
  · unfold process_data
    rw [pb s2 h2]
    rfl

/-- Witness for C10 at two malformed bound strings. -/
theorem c10_witness :
    process_data exRows (some "not-a-date") none [] =
        process_data exRows none none [] ∧
      process_data exRows none (some "2023-13-05") [] =
        process_data exRows none none [] :=
  c10_malformed_bound_ignored exRows none none [] "not-a-date" "2023-13-05"
    (by decide) (by decide)

/-- Claim C1, counterexample: on the three-row example of the spec with
`min_date = "2023-01-02"`, the code produces `source_counts = {b:1, a:1}`
— the count of source a is 1, not the 2 the claim asserts, because the
row whose date fails the bound is skipped before any counter is touched. -/
theorem c1_counterexample :
    process_data exRows (some "2023-01-02") none [] = some exStateMinBound ∧
      assocLookup (some "a") exStateMinBound.sourceCounts = some 1 ∧
      (some 1 : Option Nat) ≠ some 2 :=
  ⟨by decide, by decide, by decide⟩

/-- Claim C1, amended: a row whose resolved date fails the `min_date`
bound is excluded from `source_counts` as well (the `continue` fires
before any counter), so on the example `source_counts` becomes
`{b:1, a:1}` while `date_counts` is `{2023-01-02: 1}`. -/
theorem c1_amended (cfg : AggCfg) (st : AggState) (r : AppRow) (d m : YMD)
    (h1 : rowDateOf cfg r = some d) (h2 : cfg.minDate = some m)
    (h3 : ymdLt d m = true) :
    processRow cfg st r = st ∧
      process_data exRows (some "2023-01-02") none [] = some exStateMinBound := by
  refine ⟨?_, by decide⟩
  unfold processRow
  split
  · rfl
  · simp [h1, h2, boundLow, h3]

/-- Witness for the amended C1 at the first example row. -/
theorem c1_witness :
    rowDateOf cfg1W exRow1 = some ⟨2023, 1, 1⟩ ∧
      ymdLt ⟨2023, 1, 1⟩ ⟨2023, 1, 2⟩ = true ∧
      (processRow cfg1W initAggState exRow1 = initAggState ∧
        process_data exRows (some "2023-01-02") none [] = some exStateMinBound) :=
  ⟨by decide, by decide,
    c1_amended cfg1W initAggState exRow1 ⟨2023, 1, 1⟩ ⟨2023, 1, 2⟩
      (by decide) rfl (by decide)⟩


/-! ## Claims about the migration pipeline -/

theorem memStr_append_self (u : String) (l : List String) :
    memStr u (l ++ [u]) = true := by
  induction l with
  | nil => simp [memStr]
  | cons a t ih => simp [memStr, ih]

theorem filterFalse (l : List String) (p : String → Bool)
    (h : ∀ u ∈ l, p u = false) : l.filter p = [] := by
  rw [List.filter_eq_nil_iff]
  intro a ha
  simp [h a ha]

theorem limitFiles_subset (mf : Option Nat) (urls : List String) (u : String)
    (h : u ∈ limitFiles mf urls) : u ∈ urls := by
  cases mf with
  | none => exact h
  | some n =>
    by_cases h0 : n = 0
    · simpa [limitFiles, h0] using h
    · have h2 : u ∈ List.take n urls := by simpa [limitFiles, h0] using h
      exact List.take_subset _ _ h2

/-- Claim C2: re-running the pipeline with resume enabled, when every
discovered URL is already in the persisted done set, performs zero fetch
attempts and zero write calls and leaves the store untouched. -/
theorem c2_resume_noop (fetch : String → Except Unit (List PyDict))
    (urls : List String) (maxFiles : Option Nat) (batchSize : Nat)
    (now : PyDT) (store : Store) (outcomes : List BatchOutcome)
    (h : urls.all (fun u => memStr u store.processedFiles) = true) :
    migrate_to_mongodb fetch urls maxFiles batchSize true now store outcomes =
        initMigState store outcomes ∧
      (migrate_to_mongodb fetch urls maxFiles batchSize true now store
          outcomes).fetched = [] ∧
      (migrate_to_mongodb fetch urls maxFiles batchSize true now store
          outcomes).insertCalls = 0 ∧
      (migrate_to_mongodb fetch urls maxFiles batchSize true now store
          outcomes).store.count = store.count := by
  have hall : ∀ u ∈ urls, memStr u store.processedFiles = true := by
    simpa [List.all_eq_true] using h
  have hfil : (limitFiles maxFiles urls).filter
      (fun u => !(memStr u store.processedFiles)) = [] :=
    filterFalse _ _ (fun u hu => by
      simp [hall u (limitFiles_subset _ _ _ hu)])
  have hmain : migrate_to_mongodb fetch urls maxFiles batchSize true now store
      outcomes = initMigState store outcomes := by
    unfold migrate_to_mongodb
    simp [hfil]
  refine ⟨hmain, ?_, ?_, ?_⟩ <;> rw [hmain] <;> rfl

/-- Witness for C2: both discovered URLs already processed. -/
theorem c2_witness :
    urlsW.all (fun u => memStr u storeW.processedFiles) = true ∧
      (migrate_to_mongodb fetchFailW urlsW none 1000 true now0 storeW [] =
          initMigState storeW [] ∧
        (migrate_to_mongodb fetchFailW urlsW none 1000 true now0 storeW
            []).fetched = [] ∧
        (migrate_to_mongodb fetchFailW urlsW none 1000 true now0 storeW
            []).insertCalls = 0 ∧
        (migrate_to_mongodb fetchFailW urlsW none 1000 true now0 storeW
            []).store.count = storeW.count) :=
  ⟨by decide, c2_resume_noop fetchFailW urlsW none 1000 now0 storeW [] (by decide)⟩

theorem rowLoop_no_abort (now : PyDT) (bs : Nat) :
    ∀ (rows : List PyDict) (st : MigState) (buf : List PyDict),
      rows.all (prepOk now) = true → (rowLoop now bs st buf rows).1 = false := by
  intro rows
  induction rows with
  | nil => intro st buf _; rfl
  | cons r rs ih =>
    intro st buf h
    rw [List.all_cons, Bool.and_eq_true] at h
    obtain ⟨h1, h2⟩ := h
    unfold rowLoop
    cases hp : prepare_document now r with
    | error u =>
      simp only [prepOk, hp] at h1
      simp at h1
    | ok doc =>
      dsimp only
      split
      · exact ih _ _ h2
      · exact ih _ _ h2

theorem mark_file_processed_mem (st : MigState) (url : String) :
    memStr url (mark_file_processed st url).store.processedFiles = true := by
  unfold mark_file_processed
  split
  · next h => exact h
  · next h => exact memStr_append_self url _

theorem processFile_marks (fetch : String → Except Unit (List PyDict))
    (now : PyDT) (bs : Nat) (st : MigState) (url : String) (rows : List PyDict)
    (hf : fetch url = .ok rows) (hne : rows ≠ [])
    (hprep : rows.all (prepOk now) = true) :
    memStr url (processFile fetch now bs st url).store.processedFiles = true := by
  have hie : rows.isEmpty = false := by
    cases rows with
    | nil => exact absurd rfl hne
    | cons a t => rfl
  unfold processFile
  rw [hf]
  simp only [hie, Bool.false_eq_true, if_false]
  rcases hrl : rowLoop now bs { st with fetched := st.fetched ++ [url] } [] rows
    with ⟨aborted, st2, buf⟩
  have hab : aborted = false := by
    have h0 := rowLoop_no_abort now bs rows
      { st with fetched := st.fetched ++ [url] } [] hprep
    rw [hrl] at h0
    exact h0
  subst hab
  exact mark_file_processed_mem _ url

/-- Claim C3: a partially failing batch write adds the reported inserted
count to the inserted total and the remainder of the batch to the skipped
total (and the write-call counter still advances, i.e. processing
continues), and a partition whose rows all prepare successfully is still
marked done whatever the write outcomes were. -/
theorem c3_partial_batch_failure (st : MigState) (docs : List PyDict) (n : Nat)
    (rest : List BatchOutcome) (fetch : String → Except Unit (List PyDict))
    (now : PyDT) (bs : Nat) (st2 : MigState) (url : String)
    (rows : List PyDict)
    (h1 : st.outcomes = .bulkErr n :: rest)
    (h2 : fetch url = .ok rows) (h3 : rows ≠ [])
    (h4 : rows.all (prepOk now) = true) :
    (insertBatch st docs).totalInserted = st.totalInserted + (n : Int) ∧
      (insertBatch st docs).totalSkipped =
        st.totalSkipped + ((docs.length : Int) - (n : Int)) ∧
      (insertBatch st docs).insertCalls = st.insertCalls + 1 ∧
      memStr url (processFile fetch now bs st2 url).store.processedFiles = true := by
  refine ⟨?_, ?_, ?_, processFile_marks fetch now bs st2 url rows h2 h3 h4⟩ <;>
    simp [insertBatch, nextOutcome, h1]

/-- Witness for C3: a two-document batch of which one is rejected, and a
one-row partition. -/
theorem c3_witness :
    st3W.outcomes = .bulkErr 1 :: [] ∧
      ((insertBatch st3W docs3W).totalInserted = st3W.totalInserted + 1 ∧
        (insertBatch st3W docs3W).totalSkipped =
          st3W.totalSkipped + ((docs3W.length : Int) - 1) ∧
        (insertBatch st3W docs3W).insertCalls = st3W.insertCalls + 1 ∧
        memStr "u" (processFile fetch3W now0 1000 st4W "u").store.processedFiles
          = true) :=
  ⟨rfl,
    c3_partial_batch_failure st3W docs3W 1 [] fetch3W now0 1000 st4W "u"
      [[("a", .vInt 1)]] rfl rfl (by simp) (by decide)⟩

/-- Claim C4: a partition whose fetch raises is not added to the done set
and leaves the store untouched — the only trace is the recorded fetch
attempt — and the fold simply moves on to the remaining partitions. -/
theorem c4_fetch_error_continue (fetch : String → Except Unit (List PyDict))
    (now : PyDT) (bs : Nat) (st : MigState) (url : String)
    (rest : List String) (h : fetch url = .error ()) :
    processFile fetch now bs st url = { st with fetched := st.fetched ++ [url] } ∧
      (processFile fetch now bs st url).store = st.store ∧
      List.foldl (processFile fetch now bs) st (url :: rest) =
        List.foldl (processFile fetch now bs)
          { st with fetched := st.fetched ++ [url] } rest := by
  have h1 : processFile fetch now bs st url =
      { st with fetched := st.fetched ++ [url] } := by
    unfold processFile
    rw [h]
  exact ⟨h1, by rw [h1], by rw [List.foldl_cons, h1]⟩

/-- Witness for C4 at an always-raising fetch. -/
theorem c4_witness :
    fetchFailW "u" = .error () ∧
      (processFile fetchFailW now0 1000 st4W "u" =
          { st4W with fetched := st4W.fetched ++ ["u"] } ∧
        (processFile fetchFailW now0 1000 st4W "u").store = st4W.store ∧
        List.foldl (processFile fetchFailW now0 1000) st4W ["u", "v"] =
          List.foldl (processFile fetchFailW now0 1000)
            { st4W with fetched := st4W.fetched ++ ["u"] } ["v"]) :=
  ⟨rfl, c4_fetch_error_continue fetchFailW now0 1000 st4W "u" ["v"] rfl⟩


/-! ## Claim about the partition locator -/

theorem take_big3 {α : Type} (a b c : α) (n : Nat) (h : 3 ≤ n) :
    List.take n [a, b, c] = [a, b, c] := by
  obtain ⟨m, rfl⟩ : ∃ m, n = m + 3 := ⟨n - 3, by omega⟩
  simp [List.take_succ_cons]

/-- Claim C8: the locator tries its glob patterns in order and returns
the matches of the first pattern yielding at least one file (converted to
http URLs), never consulting later patterns once one succeeds — the
conclusion holds for every behaviour of the glob on the third pattern —
and it raises when no pattern yields a match. -/
theorem c8_first_pattern_wins (glob glob2 : String → Except Unit (List String))
    (toUrl : String → Except Unit String) (cap : Option Nat)
    (f1 f2 f3 u1 u2 u3 : String)
    (hcap : cap = none ∨ cap = some 10)
    (ha : glob patA = .ok []) (hb : glob patB = .ok [f1, f2, f3])
    (h1 : toUrl f1 = .ok u1) (h2 : toUrl f2 = .ok u2) (h3 : toUrl f3 = .ok u3)
    (s1 : startsWithHttp u1 = true) (s2 : startsWithHttp u2 = true)
    (s3 : startsWithHttp u3 = true)
    (ga : glob2 patA = .ok []) (gb : glob2 patB = .error ())
    (gc : glob2 patC = .ok []) :
    get_parquet_urls glob toUrl cap = .ok [u1, u2, u3] ∧
      get_parquet_urls glob2 toUrl cap = .error () := by
  have hfn : firstNonempty glob globPatterns = [f1, f2, f3] := by
    simp [globPatterns, firstNonempty, ha, hb]
  have hfn2 : firstNonempty glob2 globPatterns = [] := by
    simp [globPatterns, firstNonempty, ga, gb, gc]
  have hurls : convertUrls toUrl [f1, f2, f3] = [u1, u2, u3] := by
    simp [convertUrls, h1, h2, h3, s1, s2, s3]
  constructor
  · rcases hcap with rfl | rfl
    · simp [get_parquet_urls, hfn, hurls]
    · simp [get_parquet_urls, hfn, take_big3 f1 f2 f3 10 (by omega), hurls]
  · rcases hcap with rfl | rfl <;> simp [get_parquet_urls, hfn2]

/-- Witness for C8 at concrete glob and URL oracles. -/
theorem c8_witness :
    get_parquet_urls globW toUrlW none =
        .ok ["http://x/fileA", "http://x/fileB", "http://x/fileC"] ∧
      get_parquet_urls glob2W toUrlW none = .error () :=
  c8_first_pattern_wins globW glob2W toUrlW none "fileA" "fileB" "fileC"
    "http://x/fileA" "http://x/fileB" "http://x/fileC" (Or.inl rfl)
    rfl rfl rfl rfl rfl (by decide) (by decide) (by decide)
    rfl rfl rfl


/-! ## Claim about document preparation -/

theorem convertStr_safe (s : String) : safeVal (convertStr s) = true := by
  unfold convertStr
  split
  · split
    · split <;> rfl
    · split
      · split <;> rfl
      · rfl
  · rfl

theorem npToPy_safe_aux : ∀ n : Nat,
    (∀ e : Value, sizeOf e ≤ n → ndElemGood e = true →
      safeVal (npToPy e) = true) ∧
    (∀ es : List Value, sizeOf es ≤ n → ndGoodList es = true →
      safeList (npToPyList es) = true) := by
  intro n
  induction n using Nat.strong_induction_on with
  | _ n ih =>
    constructor
    · intro e hsz hg
      cases e with
      | vNdarray es =>
        have hes : sizeOf es < n := by
          simp only [Value.vNdarray.sizeOf_spec] at hsz
          omega
        have hg2 : ndGoodList es = true := by simpa [ndElemGood] using hg
        simpa [npToPy, safeVal] using (ih (sizeOf es) hes).2 es (Nat.le_refl _) hg2
      | vList es => simp [ndElemGood] at hg
      | vDict kvs => simp [ndElemGood] at hg
      | vStr s => rfl
      | vInt m => rfl
      | vFloat b => rfl
      | vBool b => rfl
      | vNone => rfl
      | vDatetime dt => rfl
      | vNpInt m => rfl
      | vNpFloat b => rfl
      | vNpBool b => rfl
      | vNaT => rfl
      | vTimestamp dt => rfl
    · intro es hsz hg
      cases es with
      | nil => rfl
      | cons v vs =>
        have h1 : sizeOf v < n := by
          simp only [List.cons.sizeOf_spec] at hsz
          omega
        have h2 : sizeOf vs < n := by
          simp only [List.cons.sizeOf_spec] at hsz
          omega
        rw [ndGoodList, Bool.and_eq_true] at hg
        obtain ⟨hg1, hg2⟩ := hg
        rw [npToPyList, safeList, Bool.and_eq_true]
        exact ⟨(ih (sizeOf v) h1).1 v (Nat.le_refl _) hg1,
          (ih (sizeOf vs) h2).2 vs (Nat.le_refl _) hg2⟩

theorem npToPyList_safe (es : List Value) (h : ndGoodList es = true) :
    safeList (npToPyList es) = true :=
  (npToPy_safe_aux (sizeOf es)).2 es (Nat.le_refl _) h

theorem convert_good_aux : ∀ n : Nat,
    (∀ v : Value, sizeOf v ≤ n → goodInput v = true →
      ∃ w, convert_value v = .ok w ∧ safeVal w = true) ∧
    (∀ kvs : PyDict, sizeOf kvs ≤ n → goodKVs kvs = true →
      ∃ ws, convert_kvs kvs = .ok ws ∧ safeKVs ws = true) := by
  intro n
  induction n using Nat.strong_induction_on with
  | _ n ih =>
    constructor
    · intro v hsz hg
      cases v with
      | vStr s => exact ⟨convertStr s, rfl, convertStr_safe s⟩
      | vInt m => exact ⟨.vInt m, rfl, rfl⟩
      | vFloat b =>
        cases b
        · exact ⟨.vFloat false, rfl, rfl⟩
        · exact ⟨.vNone, rfl, rfl⟩
      | vBool b => exact ⟨.vBool b, rfl, rfl⟩
      | vNone => exact ⟨.vNone, rfl, rfl⟩
      | vDatetime dt => exact ⟨.vDatetime dt, rfl, rfl⟩
      | vNpInt m => exact ⟨.vInt m, rfl, rfl⟩
      | vNpFloat b => exact ⟨.vFloat b, rfl, rfl⟩
      | vNpBool b => exact ⟨.vBool b, rfl, rfl⟩
      | vNaT => exact ⟨.vNone, rfl, rfl⟩
      | vTimestamp dt => exact ⟨.vDatetime dt, rfl, rfl⟩
      | vNdarray es =>
        refine ⟨.vList (npToPyList es), rfl, ?_⟩
        have hg2 : ndGoodList es = true := by simpa [goodInput] using hg
        simpa [safeVal] using npToPyList_safe es hg2
      | vList es => simp [goodInput] at hg
      | vDict kvs =>
        have hk : sizeOf kvs < n := by
          simp only [Value.vDict.sizeOf_spec] at hsz
          omega
        have hg2 : goodKVs kvs = true := by simpa [goodInput] using hg
        obtain ⟨ws, hok, hsafe⟩ := (ih (sizeOf kvs) hk).2 kvs (Nat.le_refl _) hg2
        refine ⟨.vDict ws, ?_, by simpa [safeVal] using hsafe⟩
        rw [convert_value, hok]
    · intro kvs hsz hg
      cases kvs with
      | nil => exact ⟨[], rfl, rfl⟩
      | cons p t =>
        obtain ⟨k, v⟩ := p
        have h1 : sizeOf v < n := by
          simp only [List.cons.sizeOf_spec, Prod.mk.sizeOf_spec] at hsz
          omega
        have h2 : sizeOf t < n := by
          simp only [List.cons.sizeOf_spec] at hsz
          omega
        rw [goodKVs, Bool.and_eq_true] at hg
        obtain ⟨hg1, hg2⟩ := hg
        obtain ⟨w, hw, hsw⟩ := (ih (sizeOf v) h1).1 v (Nat.le_refl _) hg1
        obtain ⟨ws, hws, hsws⟩ := (ih (sizeOf t) h2).2 t (Nat.le_refl _) hg2
        refine ⟨(k, w) :: ws, ?_, ?_⟩
        · rw [convert_kvs, hw, hws]
        · rw [safeKVs, Bool.and_eq_true]
          exact ⟨hsw, hsws⟩

theorem convert_kvs_good (kvs : PyDict) (h : goodKVs kvs = true) :
    ∃ ws, convert_kvs kvs = .ok ws ∧ safeKVs ws = true :=
  (convert_good_aux (sizeOf kvs)).2 kvs (Nat.le_refl _) h

theorem convert_kvs_lookup (kvs : PyDict) : ∀ (ws : PyDict),
    convert_kvs kvs = .ok ws → ∀ (k : String) (t : PyDT),
      assocLookup k kvs = some (.vDatetime t) →
        assocLookup k ws = some (.vDatetime t) := by
  induction kvs with
  | nil =>
    intro ws hws k t hk
    simp [assocLookup] at hk
  | cons p rest ih =>
    obtain ⟨a, v⟩ := p
    intro ws hws k t hk
    cases hv : convert_value v with
    | error u => rw [convert_kvs, hv] at hws; cases hws
    | ok w =>
      cases hrest : convert_kvs rest with
      | error u => rw [convert_kvs, hv, hrest] at hws; cases hws
      | ok ws2 =>
        rw [convert_kvs, hv, hrest] at hws
        cases hws
        by_cases hak : a = k
        · subst hak
          rw [assocLookup, if_pos rfl] at hk
          cases hk
          rw [convert_value] at hv
          cases hv
          rw [assocLookup, if_pos rfl]
        · rw [assocLookup, if_neg hak] at hk
          rw [assocLookup, if_neg hak]
          exact ih ws2 hrest k t hk

theorem dictSet_lookup (kvs : PyDict) (k : String) (v : Value) :
    assocLookup k (dictSet kvs k v) = some v := by
  induction kvs with
  | nil => simp [dictSet, assocLookup]
  | cons p t ih =>
    obtain ⟨a, b⟩ := p
    by_cases h : a = k
    · subst h
      rw [dictSet, if_pos rfl, assocLookup, if_pos rfl]
    · rw [dictSet, if_neg h, assocLookup, if_neg h]
      exact ih

theorem dictSet_good (kvs : PyDict) (k : String) (v : Value)
    (hk : goodKVs kvs = true) (hv : goodInput v = true) :
    goodKVs (dictSet kvs k v) = true := by
  induction kvs with
  | nil => simp [dictSet, goodKVs, hv]
  | cons p t ih =>
    obtain ⟨a, b⟩ := p
    rw [goodKVs, Bool.and_eq_true] at hk
    obtain ⟨hk1, hk2⟩ := hk
    by_cases h : a = k
    · subst h
      rw [dictSet, if_pos rfl, goodKVs, Bool.and_eq_true]
      exact ⟨hv, hk2⟩
    · rw [dictSet, if_neg h, goodKVs, Bool.and_eq_true]
      exact ⟨hk1, ih hk2⟩

/-- Claim C9, counterexample: a row holding a plain two-element Python
list makes `prepare_document` raise — `pd.isna` coerces the list to a
two-element boolean array whose truth test raises `ValueError` — so the
coercion is not error-free on every fetched row. -/
theorem c9_counterexample : prepare_document now0 rowBad9 = .error () := rfl

/-- Claim C9, amended: for every fetched row whose values contain no
plain Python list and whose arrays hold only scalars or nested arrays,
`prepare_document` succeeds, the produced document carries the
`_imported_at` timestamp, and every value in it is recursively coerced
to persistence-safe primitives. -/
theorem c9_amended (row : PyDict) (now : PyDT) (h : goodKVs row = true) :
    ∃ doc, prepare_document now row = .ok doc ∧ safeKVs doc = true ∧
      assocLookup "_imported_at" doc = some (.vDatetime now) := by
  have hg : goodKVs (dictSet row "_imported_at" (.vDatetime now)) = true :=
    dictSet_good row _ _ h rfl
  obtain ⟨ws, hok, hsafe⟩ := convert_kvs_good _ hg
  exact ⟨ws, hok, hsafe,
    convert_kvs_lookup _ ws hok _ now (dictSet_lookup row _ _)⟩

/-- Witness for the amended C9 at a row exercising NumPy scalars, nested
dicts, nested arrays, a date string and a Timestamp. -/
theorem c9_witness :
    goodKVs rowGood9 = true ∧
      (∃ doc, prepare_document now0 rowGood9 = .ok doc ∧ safeKVs doc = true ∧
        assocLookup "_imported_at" doc = some (.vDatetime now0)) :=
  ⟨by decide, c9_amended rowGood9 now0 (by decide)⟩

